import Mathlib

/-
Shallow embedding of music-metadata src/lib/core.ts (v4.8.0) together with the
type declarations of lib/type.ts, and proofs about the six exported entry
points: parseStream, parseBuffer, parseFromTokenizer, orderTags, ratingToStars
and scanAppendingHeaders.

External collaborators that core.ts calls but that are not part of this source
fragment (the Lyrics3 length probe, the APEv2 footer probe, and the parser
factory) are taken as function parameters, so every theorem quantifies over
their behaviour.  JavaScript-specific behaviour that the code relies on is made
explicit: truthiness of optional numbers (undefined and 0 are falsy), property
lookup on a plain object falling through to Object.prototype, and the TypeError
raised by dereferencing undefined or by calling push on a non-array.
-/

set_option autoImplicit false

namespace MusicMetadata

/-- Provides random data read access over a file or buffer of known size
(interface IRandomReader of lib/type.ts).  randomRead is modelled one byte at
a time: readByte p is the byte at position p, none past the end. -/
structure IRandomReader where
  fileSize : Nat
  readByte : Nat → Option Nat

/-- RandomBufferReader (lib/common/RandomBufferReader.ts): an IRandomReader
over an in-memory buffer, here a list of bytes. -/
def RandomBufferReader (buf : List Nat) : IRandomReader :=
  ⟨buf.length, fun i => buf.get? i⟩

/-- Modelled from the spec: hasID3v1Header lives in lib/id3v1/ID3v1Parser.ts,
which is not under src/.  The spec procedure: read the last 128 bytes and test
for "TAG" (bytes 84, 65, 71) at offset 0 of that block, i.e. at file positions
fileSize - 128, fileSize - 127, fileSize - 126; a file shorter than 128 bytes
has no such block. -/
def hasID3v1Header (r : IRandomReader) : Bool :=
  decide (128 ≤ r.fileSize) &&
    decide (r.readByte (r.fileSize - 128) = some 84) &&
    decide (r.readByte (r.fileSize - 127) = some 65) &&
    decide (r.readByte (r.fileSize - 126) = some 71)

/-- Parse options (interface IOptions of lib/type.ts).  Every field is
optional; the observer callback is modelled as an opaque handle. -/
structure IOptions where
  path : Option String
  fileSize : Option Nat
  native : Option Bool
  duration : Option Bool
  skipCovers : Option Bool
  skipPostHeaders : Option Bool
  observer : Option Nat
  apeOffset : Option Int

/-- The literal options object with every field undefined; the default value
of the options parameter of parseStream, parseBuffer and scanAppendingHeaders. -/
def emptyOptions : IOptions :=
  ⟨none, none, none, none, none, none, none, none⟩

/-- scanAppendingHeaders (core.ts lines 76 to 86).  The Lyrics3 length probe
(lib/lyrics3/Lyrics3.ts) and the APEv2 footer probe
(lib/apev2/APEv2Parser.ts), both outside src/, are parameters.  The candidate
offset is a JavaScript number that the code decrements, so it is modelled as
an Int. -/
def scanAppendingHeaders (getLyricsHeaderLength : IRandomReader → Nat)
    (findApeFooterOffset : IRandomReader → Int → Option Int)
    (randomReader : IRandomReader) (options : IOptions) : IOptions :=
  let apeOffset : Int := randomReader.fileSize
  let apeOffset : Int :=
    if hasID3v1Header randomReader then
      apeOffset - 128 - getLyricsHeaderLength randomReader
    else
      apeOffset
  { options with apeOffset := findApeFooterOffset randomReader apeOffset }

/-- The candidate footer position that scanAppendingHeaders hands to the APEv2
probe: fileSize, less 128 and the Lyrics3 length when an ID3v1 trailer is
present. -/
def scanCandidateOffset (getLyricsHeaderLength : IRandomReader → Nat)
    (r : IRandomReader) : Int :=
  if hasID3v1Header r then
    (r.fileSize : Int) - 128 - getLyricsHeaderLength r
  else
    (r.fileSize : Int)

/-- The byte source behind a tokenizer: a forward-only stream (opaque handle)
or an in-memory buffer. -/
inductive TokSource where
  | stream (id : Nat)
  | buffer (data : List Nat)

/-- A strtok3 tokenizer handle as seen by core.ts: a possibly unknown fileSize
(a JavaScript number or undefined), a read position, and its byte source. -/
structure ITokenizer where
  fileSize : Option Nat
  position : Nat
  source : TokSource

/-- strtok3.fromBuffer: a tokenizer over a buffer knows its size. -/
def fromBuffer (buf : List Nat) : ITokenizer :=
  ⟨some buf.length, 0, TokSource.buffer buf⟩

/-- strtok3.fromStream: a tokenizer over a plain readable stream has no size. -/
def fromStream (id : Nat) : ITokenizer :=
  ⟨none, 0, TokSource.stream id⟩

/-- JavaScript truthiness of an optional number: undefined and 0 are falsy. -/
def jsTruthy : Option Nat → Bool
  | none => false
  | some n => !(n == 0)

/-- The JavaScript exceptions the embedded code can raise. -/
inductive JSError where
  | typeError

/-- The result record (interface IAudioMetadata of lib/type.ts): format facts,
native tags, quality warnings and the common view, with abstract contents. -/
structure IAudioMetadata (F N C W : Type) where
  format : F
  native : N
  quality : W
  common : C

/-- parseFromTokenizer (core.ts lines 47 to 52).  The parser factory
(lib/ParserFactory.ts, outside src/) is a parameter.  The JavaScript body is
`if (!tokenizer.fileSize && options.fileSize) tokenizer.fileSize = options.fileSize`
followed by the factory call; evaluating options.fileSize when the options
argument was omitted throws a TypeError.  The in-place mutation of the
tokenizer is modelled by returning the tokenizer object alongside the factory
result. -/
def parseFromTokenizer {α : Type}
    (factory : ITokenizer → Option String → Option IOptions → α)
    (tokenizer : ITokenizer) (mimeType : Option String)
    (options : Option IOptions) : Except JSError (ITokenizer × α) :=
  if jsTruthy tokenizer.fileSize then
    Except.ok (tokenizer, factory tokenizer mimeType options)
  else
    match options with
    | none => Except.error JSError.typeError
    | some o =>
      if jsTruthy o.fileSize then
        let tokenizer : ITokenizer := { tokenizer with fileSize := o.fileSize }
        Except.ok (tokenizer, factory tokenizer mimeType options)
      else
        Except.ok (tokenizer, factory tokenizer mimeType options)

/-- The tokenizer as it stands after the fileSize override in
parseFromTokenizer: unchanged when its fileSize is truthy or when
options.fileSize is falsy, otherwise with fileSize replaced. -/
def updateTok (tokenizer : ITokenizer) (o : IOptions) : ITokenizer :=
  if jsTruthy tokenizer.fileSize then
    tokenizer
  else if jsTruthy o.fileSize then
    { tokenizer with fileSize := o.fileSize }
  else
    tokenizer

/-- parseBuffer (core.ts lines 31 to 38): build a RandomBufferReader over the
buffer, run scanAppendingHeaders on the caller-supplied options object
(mutating it), then tokenize the buffer and delegate.  The mutated options
object is returned alongside so the caller-visible effect is observable. -/
def parseBuffer {α : Type} (getLyricsHeaderLength : IRandomReader → Nat)
    (findApeFooterOffset : IRandomReader → Int → Option Int)
    (factory : ITokenizer → Option String → Option IOptions → α)
    (buf : List Nat) (mimeType : Option String) (options : IOptions) :
    Except JSError (IOptions × ITokenizer × α) :=
  let bufferReader := RandomBufferReader buf
  let options :=
    scanAppendingHeaders getLyricsHeaderLength findApeFooterOffset bufferReader options
  let tokenizer := fromBuffer buf
  match parseFromTokenizer factory tokenizer mimeType (some options) with
  | Except.error e => Except.error e
  | Except.ok (t, a) => Except.ok (options, t, a)

/-- parseStream (core.ts lines 19 to 21): tokenize the stream and delegate; no
reader is built and no trailer scan happens. -/
def parseStream {α : Type}
    (factory : ITokenizer → Option String → Option IOptions → α)
    (stream : Nat) (mimeType : Option String) (options : IOptions) :
    Except JSError (ITokenizer × α) :=
  parseFromTokenizer factory (fromStream stream) mimeType (some options)

/-- A factory that just records the arguments it was invoked with; used to
state which tokenizer and options reach the parsing stage. -/
def observeArgs : ITokenizer → Option String → Option IOptions →
    ITokenizer × Option String × Option IOptions :=
  fun t m o => (t, m, o)

/-- A native tag (interface ITag of lib/type.ts): an identifier and a value of
any type. -/
structure ITag (α : Type) where
  id : String
  value : α

/-- A value read from a JavaScript object property during orderTags: either an
array of tag values, or a value inherited from Object.prototype: one of its
function-valued properties, or Object.prototype itself delivered by the
__proto__ accessor.  Every inherited value is truthy and is not an array, so
`|| []` keeps it and push on it throws; orderTags exits on that throw, so the
model does not need to distinguish the inherited values further. -/
inductive JSValue (α : Type) where
  | arr (elems : List α)
  | inherited

/-- The property names a plain object literal inherits from Object.prototype:
its eleven function-valued data properties plus the __proto__ accessor, whose
getter returns Object.prototype (truthy, not an array, and without a push
method, exactly like the functions). -/
def protoKeys : List String :=
  ["constructor", "hasOwnProperty", "isPrototypeOf", "propertyIsEnumerable",
   "toLocaleString", "toString", "valueOf",
   "__defineGetter__", "__defineSetter__", "__lookupGetter__", "__lookupSetter__",
   "__proto__"]

/-- Own-property lookup on the accumulator object, kept as an association list
in insertion order with unique keys. -/
def lookupOwn {α : Type} : List (String × JSValue α) → String → Option (JSValue α)
  | [], _ => none
  | (k, v) :: rest, key => if k = key then some v else lookupOwn rest key

/-- Property read tags[key]: the own property if present, else the value
inherited from Object.prototype for its property names (a function, or
Object.prototype itself for the __proto__ accessor), else undefined. -/
def getProp {α : Type} (obj : List (String × JSValue α)) (key : String) :
    Option (JSValue α) :=
  match lookupOwn obj key with
  | some v => some v
  | none => if key ∈ protoKeys then some JSValue.inherited else none

/-- Property write tags[key] = v: replace the own property in place, or append
a new one. -/
def setProp {α : Type} : List (String × JSValue α) → String → JSValue α →
    List (String × JSValue α)
  | [], key, v => [(key, v)]
  | (k, w) :: rest, key, v =>
    if k = key then (key, v) :: rest else (k, w) :: setProp rest key v

/-- One iteration of the loop body of orderTags:
`(tags[tag.id] = (tags[tag.id] || [])).push(tag.value)`.
An own array (always truthy in JavaScript) is extended; an absent property is
initialised to a one-element array; a value inherited from Object.prototype
(a function, or Object.prototype through the __proto__ setter) is truthy, so
the `|| []` keeps it, the assignment stores it, and the push on it throws a
TypeError, aborting orderTags. -/
def orderTagsStep {α : Type} (tags : List (String × JSValue α)) (tag : ITag α) :
    Except Unit (List (String × JSValue α)) :=
  match getProp tags tag.id with
  | some (JSValue.arr vs) =>
    Except.ok (setProp tags tag.id (JSValue.arr (vs ++ [tag.value])))
  | some JSValue.inherited => Except.error ()
  | none => Except.ok (setProp tags tag.id (JSValue.arr [tag.value]))

/-- The for-of loop of orderTags over the remaining tags. -/
def orderTagsFrom {α : Type} (tags : List (String × JSValue α)) :
    List (ITag α) → Except Unit (List (String × JSValue α))
  | [] => Except.ok tags
  | t :: ts =>
    match orderTagsStep tags t with
    | Except.error e => Except.error e
    | Except.ok tags' => orderTagsFrom tags' ts

/-- orderTags (core.ts lines 59 to 65): fold the tags into an initially empty
plain object; an error is the TypeError described at orderTagsStep. -/
def orderTags {α : Type} (nativeTags : List (ITag α)) :
    Except Unit (List (String × JSValue α)) :=
  orderTagsFrom [] nativeTags

/-- The value a property holds after pushing a list of values onto what it
held before (used to state the orderTags loop invariant). -/
def afterPush {α : Type} (cur : Option (JSValue α)) (l : List α) :
    Option (JSValue α) :=
  match l with
  | [] => cur
  | l' =>
    match cur with
    | some (JSValue.arr vs) => some (JSValue.arr (vs ++ l'))
    | none => some (JSValue.arr l')
    | some JSValue.inherited => some JSValue.inherited

/-- JavaScript Math.round on an exact rational: floor of x + 1/2. -/
def jsRound (x : ℚ) : ℤ :=
  Int.floor (x + 1 / 2)

/-- ratingToStars (core.ts lines 72 to 74):
`rating === undefined ? 0 : 1 + Math.round(rating * 4)`. -/
def ratingToStars (rating : Option ℚ) : ℤ :=
  match rating with
  | none => 0
  | some r => 1 + jsRound (r * 4)

/-- Concrete tag list exercising orderTags: a duplicated id with a distinct id
in between. -/
def wTags : List (ITag Nat) :=
  [ITag.mk "TIT2" 1, ITag.mk "TPE1" 3, ITag.mk "TIT2" 2]

/-- Concrete reader whose last 128 bytes start with "TAG": an ID3v1 trailer is
present. -/
def tagReader : IRandomReader :=
  RandomBufferReader (84 :: 65 :: 71 :: List.replicate 125 0)

/-- Concrete reader of 3 bytes: too short for an ID3v1 trailer. -/
def shortReader : IRandomReader :=
  RandomBufferReader [1, 2, 3]

/-- Helper: with an options object present, parseFromTokenizer never throws:
it returns the possibly size-updated tokenizer and the factory applied to it. -/
theorem parseFromTokenizer_some {α : Type}
    (factory : ITokenizer → Option String → Option IOptions → α)
    (tok : ITokenizer) (mime : Option String) (o : IOptions) :
    parseFromTokenizer factory tok mime (some o)
      = Except.ok (updateTok tok o, factory (updateTok tok o) mime (some o)) := by
  unfold parseFromTokenizer updateTok
  by_cases h1 : jsTruthy tok.fileSize
  · simp [h1]
  · by_cases h2 : jsTruthy o.fileSize <;> simp [h1, h2]

/-- Helper: the fileSize override is idempotent. -/
theorem updateTok_idem (tok : ITokenizer) (o : IOptions) :
    updateTok (updateTok tok o) o = updateTok tok o := by
  by_cases h1 : jsTruthy tok.fileSize
  · simp [updateTok, h1]
  · by_cases h2 : jsTruthy o.fileSize
    · have hup : jsTruthy ({ tok with fileSize := o.fileSize } : ITokenizer).fileSize
          = true := h2
      simp [updateTok, h1, h2, hup]
    · simp [updateTok, h1, h2]

/-- Claim C4: ratingToStars computes 1 + round(r * 4) for a defined input r,
returns 0 for undefined input, and for every r in [0, 1] its result is an
integer between 1 and 5. -/
theorem ratingToStars_spec :
    ratingToStars none = 0 ∧
    (∀ r : ℚ, ratingToStars (some r) = 1 + jsRound (r * 4)) ∧
    (∀ r : ℚ, 0 ≤ r → r ≤ 1 →
      1 ≤ ratingToStars (some r) ∧ ratingToStars (some r) ≤ 5) := by
  refine ⟨rfl, fun r => rfl, fun r h0 h1 => ?_⟩
  have hlo : (0 : ℤ) ≤ Int.floor (r * 4 + 1 / 2) := by
    rw [Int.le_floor]
    push_cast
    nlinarith
  have hhi : Int.floor (r * 4 + 1 / 2) < 5 := by
    rw [Int.floor_lt]
    push_cast
    nlinarith
  constructor
  · show 1 ≤ 1 + jsRound (r * 4)
    unfold jsRound
    omega
  · show 1 + jsRound (r * 4) ≤ 5
    unfold jsRound
    omega

/-- Witness for C4 at the concrete rating 1/2 (which maps to 3 stars). -/
theorem ratingToStars_spec_witness :
    (0 : ℚ) ≤ 1 / 2 ∧ (1 / 2 : ℚ) ≤ 1 ∧
    1 ≤ ratingToStars (some (1 / 2)) ∧ ratingToStars (some (1 / 2)) ≤ 5 :=
  ⟨by norm_num, by norm_num,
    (ratingToStars_spec.2.2 (1 / 2) (by norm_num) (by norm_num)).1,
    (ratingToStars_spec.2.2 (1 / 2) (by norm_num) (by norm_num)).2⟩

/-- Claim C9: orderTags is not total over arbitrary tag ids.  On the concrete
list with ids "title" and "valueOf", the accumulator object inherits a truthy
function at "valueOf" from Object.prototype, the `|| []` initialisation is
skipped, and the push throws a TypeError, so orderTags raises instead of
collecting the value. -/
theorem orderTags_inherited_id_throws :
    orderTags [ITag.mk "title" (1 : Nat), ITag.mk "valueOf" 2]
      = Except.error () := by
  rfl

/-- Counterexample to claim C1: scanAppendingHeaders overwrites a
caller-provided options.apeOffset (here 42) with the offset computed by the
APEv2 footer probe (here 7); the caller-supplied value does not survive. -/
theorem scanAppendingHeaders_replaces_caller_apeOffset :
    (scanAppendingHeaders (fun _ => 0) (fun _ _ => some 7)
        (RandomBufferReader (List.replicate 200 0))
        (IOptions.mk none none none none none none none (some 42))).apeOffset
      = some 7 ∧ (some (7 : Int)) ≠ some (42 : Int) :=
  ⟨rfl, by decide⟩

/-- Claim C1 as amended: when the caller supplies an apeOffset and the trailer
scanner also computes one, the scanner wins: scanAppendingHeaders always sets
options.apeOffset to the value computed by the APEv2 footer probe at the
candidate offset, and its result does not depend on the incoming apeOffset
(nor on any other incoming option field). -/
theorem scanAppendingHeaders_computed_wins
    (getL : IRandomReader → Nat) (findA : IRandomReader → Int → Option Int)
    (r : IRandomReader) (o o' : IOptions) :
    (scanAppendingHeaders getL findA r o).apeOffset
      = findA r (scanCandidateOffset getL r) ∧
    (scanAppendingHeaders getL findA r o).apeOffset
      = (scanAppendingHeaders getL findA r o').apeOffset :=
  ⟨rfl, rfl⟩

/-- Claim C2: for every random reader with known size, scanAppendingHeaders
starts from the candidate offset fileSize, subtracts 128 exactly when an
ID3v1 header ("TAG", bytes 84 65 71, at position fileSize - 128) is present,
subtracts the declared Lyrics3 length only when ID3v1 is present (when it is
absent the result does not depend on the Lyrics3 probe at all), then hands the
adjusted position to the APEv2 footer probe and records the probe result in
options.apeOffset. -/
theorem scanAppendingHeaders_procedure
    (getL : IRandomReader → Nat) (findA : IRandomReader → Int → Option Int)
    (r : IRandomReader) (o : IOptions) :
    (hasID3v1Header r = true ↔
      128 ≤ r.fileSize ∧ r.readByte (r.fileSize - 128) = some 84 ∧
      r.readByte (r.fileSize - 127) = some 65 ∧
      r.readByte (r.fileSize - 126) = some 71) ∧
    (hasID3v1Header r = true →
      (scanAppendingHeaders getL findA r o).apeOffset
        = findA r ((r.fileSize : Int) - 128 - getL r)) ∧
    (hasID3v1Header r = false →
      ∀ getL' : IRandomReader → Nat,
        (scanAppendingHeaders getL' findA r o).apeOffset
          = findA r (r.fileSize : Int)) := by
  refine ⟨?_, fun h => ?_, fun h getL' => ?_⟩
  · unfold hasID3v1Header
    simp [Bool.and_eq_true, decide_eq_true_iff, and_assoc]
  · simp [scanAppendingHeaders, h]
  · simp [scanAppendingHeaders, h]

set_option maxRecDepth 8192

/-- Witness for C2: a 128-byte reader starting with "TAG" (ID3v1 present, so
128 and the declared Lyrics3 length 5 are subtracted giving -5), and a 3-byte
reader (no ID3v1, so the probe sees fileSize 3 unchanged). -/
theorem scanAppendingHeaders_procedure_witness :
    hasID3v1Header tagReader = true ∧
    (scanAppendingHeaders (fun _ => 5) (fun _ off => some off) tagReader
        emptyOptions).apeOffset
      = some ((tagReader.fileSize : Int) - 128 - 5) ∧
    hasID3v1Header shortReader = false ∧
    (scanAppendingHeaders (fun _ => 5) (fun _ off => some off) shortReader
        emptyOptions).apeOffset
      = some (shortReader.fileSize : Int) :=
  ⟨by decide,
    (scanAppendingHeaders_procedure (fun _ => 5) (fun _ off => some off)
        tagReader emptyOptions).2.1 (by decide),
    by decide,
    (scanAppendingHeaders_procedure (fun _ => 5) (fun _ off => some off)
        shortReader emptyOptions).2.2 (by decide) (fun _ => 5)⟩

/-- Helper: the full evaluation of parseBuffer: the options after the trailer
scan come back to the caller, and the factory is applied to the
possibly size-updated buffer tokenizer and exactly those scanned options. -/
theorem parseBuffer_eq {α : Type}
    (getL : IRandomReader → Nat) (findA : IRandomReader → Int → Option Int)
    (factory : ITokenizer → Option String → Option IOptions → α)
    (buf : List Nat) (mime : Option String) (o : IOptions) :
    parseBuffer getL findA factory buf mime o
      = Except.ok
          (scanAppendingHeaders getL findA (RandomBufferReader buf) o,
            updateTok (fromBuffer buf)
              (scanAppendingHeaders getL findA (RandomBufferReader buf) o),
            factory
              (updateTok (fromBuffer buf)
                (scanAppendingHeaders getL findA (RandomBufferReader buf) o))
              mime
              (some (scanAppendingHeaders getL findA (RandomBufferReader buf) o))) := by
  show (match parseFromTokenizer factory (fromBuffer buf) mime
      (some (scanAppendingHeaders getL findA (RandomBufferReader buf) o)) with
    | Except.error e => Except.error e
    | Except.ok (t, a) =>
      Except.ok (scanAppendingHeaders getL findA (RandomBufferReader buf) o, t, a)) = _
  rw [parseFromTokenizer_some]

/-- Claim C5: the trailer scan is performed for every buffer input and never
for a stream input.  For every buffer, parseBuffer succeeds, the caller
options object comes back with the scan applied, and the parser factory is
invoked with exactly those scanned options, whose apeOffset holds the result
of the APEv2 probe at the candidate offset for that buffer.  For every stream
input, the factory is invoked with the caller options object completely
untouched (as witnessed by a factory that records its arguments). -/
theorem parse_trailer_scan_buffer_only {α : Type}
    (getL : IRandomReader → Nat) (findA : IRandomReader → Int → Option Int)
    (factory : ITokenizer → Option String → Option IOptions → α)
    (buf : List Nat) (s : Nat) (mime : Option String) (o : IOptions) :
    (∃ t, parseBuffer getL findA factory buf mime o
        = Except.ok
            (scanAppendingHeaders getL findA (RandomBufferReader buf) o, t,
              factory t mime
                (some (scanAppendingHeaders getL findA (RandomBufferReader buf) o)))) ∧
    ((scanAppendingHeaders getL findA (RandomBufferReader buf) o).apeOffset
      = findA (RandomBufferReader buf)
          (scanCandidateOffset getL (RandomBufferReader buf))) ∧
    (∃ t, parseStream observeArgs s mime o = Except.ok (t, (t, mime, some o))) := by
  refine ⟨⟨updateTok (fromBuffer buf)
      (scanAppendingHeaders getL findA (RandomBufferReader buf) o),
      parseBuffer_eq getL findA factory buf mime o⟩, rfl,
    ⟨updateTok (fromStream s) o, ?_⟩⟩
  show parseFromTokenizer observeArgs (fromStream s) mime (some o) = _
  rw [parseFromTokenizer_some]
  rfl

/-- Counterexample to claim C6: a tokenizer that has a fileSize (namely 0) is
not left unchanged; its fileSize is overwritten with options.fileSize = 5,
because the code tests JavaScript truthiness, not presence.  Dually, a
tokenizer lacking a fileSize does not receive a provided options.fileSize of
0, because 0 is falsy. -/
theorem parseFromTokenizer_zero_fileSize_overridden :
    parseFromTokenizer (fun _ _ _ => (0 : Nat))
        (ITokenizer.mk (some 0) 3 (TokSource.stream 0)) none
        (some (IOptions.mk none (some 5) none none none none none none))
      = Except.ok (ITokenizer.mk (some 5) 3 (TokSource.stream 0), 0) ∧
    (ITokenizer.mk (some 0) 3 (TokSource.stream 0)).fileSize ≠ none ∧
    some (0 : Nat) ≠ some 5 ∧
    parseFromTokenizer (fun _ _ _ => (0 : Nat))
        (ITokenizer.mk none 3 (TokSource.stream 0)) none
        (some (IOptions.mk none (some 0) none none none none none none))
      = Except.ok (ITokenizer.mk none 3 (TokSource.stream 0), 0) :=
  ⟨rfl, by decide, by decide, rfl⟩

/-- Claim C6 as amended: options.fileSize overrides the tokenizer size exactly
when the tokenizer fileSize is JavaScript-falsy (absent or 0) and
options.fileSize is truthy (present and nonzero).  When the tokenizer
fileSize is truthy, the tokenizer is left completely unchanged; when the
override fires, only fileSize changes, position and source are untouched;
when options.fileSize is falsy, the tokenizer is also left unchanged. -/
theorem parseFromTokenizer_fileSize_frame {α : Type}
    (factory : ITokenizer → Option String → Option IOptions → α)
    (tok : ITokenizer) (mime : Option String) (o : IOptions) :
    (jsTruthy tok.fileSize = true →
      parseFromTokenizer factory tok mime (some o)
        = Except.ok (tok, factory tok mime (some o))) ∧
    (jsTruthy tok.fileSize = false → jsTruthy o.fileSize = true →
      parseFromTokenizer factory tok mime (some o)
        = Except.ok ({ tok with fileSize := o.fileSize },
            factory { tok with fileSize := o.fileSize } mime (some o)) ∧
      ({ tok with fileSize := o.fileSize } : ITokenizer).position = tok.position ∧
      ({ tok with fileSize := o.fileSize } : ITokenizer).source = tok.source) ∧
    (jsTruthy tok.fileSize = false → jsTruthy o.fileSize = false →
      parseFromTokenizer factory tok mime (some o)
        = Except.ok (tok, factory tok mime (some o))) := by
  refine ⟨fun h1 => ?_, fun h1 h2 => ⟨?_, rfl, rfl⟩, fun h1 h2 => ?_⟩
  · rw [parseFromTokenizer_some]; simp [updateTok, h1]
  · rw [parseFromTokenizer_some]; simp [updateTok, h1, h2]
  · rw [parseFromTokenizer_some]; simp [updateTok, h1, h2]

/-- Witness for C6: a tokenizer with truthy fileSize 10 passes through
parseFromTokenizer unchanged. -/
theorem parseFromTokenizer_fileSize_frame_witness :
    jsTruthy (ITokenizer.mk (some 10) 2 (TokSource.stream 0)).fileSize = true ∧
    parseFromTokenizer (fun _ _ _ => (0 : Nat))
        (ITokenizer.mk (some 10) 2 (TokSource.stream 0)) none (some emptyOptions)
      = Except.ok (ITokenizer.mk (some 10) 2 (TokSource.stream 0), 0) :=
  ⟨rfl, (parseFromTokenizer_fileSize_frame (fun _ _ _ => (0 : Nat))
      (ITokenizer.mk (some 10) 2 (TokSource.stream 0)) none emptyOptions).1 rfl⟩

/-- Counterexample to claim C8: a call to parseFromTokenizer without an
options argument does not throw when the tokenizer fileSize is truthy: the
options.fileSize dereference is guarded by !tokenizer.fileSize, so it is not
unconditional and such a call completes into the factory. -/
theorem parseFromTokenizer_ok_without_options :
    parseFromTokenizer (fun _ _ _ => (0 : Nat))
        (ITokenizer.mk (some 1000) 0 (TokSource.stream 0)) none none
      = Except.ok (ITokenizer.mk (some 1000) 0 (TokSource.stream 0), 0) := rfl

/-- Claim C8 as amended: parseFromTokenizer is still not total over its
declared signature: whenever the tokenizer fileSize is falsy (in particular
for every plain stream tokenizer), a call without an options argument
evaluates options.fileSize on undefined and throws a TypeError before any
parsing begins. -/
theorem parseFromTokenizer_no_options_throws {α : Type}
    (factory : ITokenizer → Option String → Option IOptions → α)
    (tok : ITokenizer) (mime : Option String)
    (h : jsTruthy tok.fileSize = false) :
    parseFromTokenizer factory tok mime none = Except.error JSError.typeError := by
  unfold parseFromTokenizer
  simp [h]

/-- Witness for C8: a stream tokenizer has no fileSize, and the optionless
call throws. -/
theorem parseFromTokenizer_no_options_throws_witness :
    jsTruthy (fromStream 0).fileSize = false ∧
    parseFromTokenizer (fun _ _ _ => (0 : Nat)) (fromStream 0) none none
      = Except.error JSError.typeError :=
  ⟨rfl, parseFromTokenizer_no_options_throws (fun _ _ _ => (0 : Nat))
    (fromStream 0) none rfl⟩

/-- Claim C10: parseBuffer mutates the caller-supplied options object by
setting exactly its apeOffset field to the result of the APEv2 footer probe
at the candidate offset, leaving path, fileSize, native, duration,
skipCovers, skipPostHeaders and observer unchanged; the same holds for any
call to scanAppendingHeaders. -/
theorem parseBuffer_frame {α : Type}
    (getL : IRandomReader → Nat) (findA : IRandomReader → Int → Option Int)
    (factory : ITokenizer → Option String → Option IOptions → α)
    (buf : List Nat) (mime : Option String) (r : IRandomReader) (o : IOptions) :
    scanAppendingHeaders getL findA r o
      = IOptions.mk o.path o.fileSize o.native o.duration o.skipCovers
          o.skipPostHeaders o.observer (findA r (scanCandidateOffset getL r)) ∧
    (∃ t a, parseBuffer getL findA factory buf mime o
        = Except.ok
            (IOptions.mk o.path o.fileSize o.native o.duration o.skipCovers
              o.skipPostHeaders o.observer
              (findA (RandomBufferReader buf)
                (scanCandidateOffset getL (RandomBufferReader buf))), t, a)) := by
  refine ⟨rfl,
    ⟨updateTok (fromBuffer buf)
        (scanAppendingHeaders getL findA (RandomBufferReader buf) o),
      factory (updateTok (fromBuffer buf)
          (scanAppendingHeaders getL findA (RandomBufferReader buf) o)) mime
        (some (scanAppendingHeaders getL findA (RandomBufferReader buf) o)), ?_⟩⟩
  rw [parseBuffer_eq]
  rfl

/-- Claim C7: parsing is deterministic.  With the external parser factory a
function of the tokenizer, MIME hint and options, running parseBuffer twice
over the same bytes and the same (mutated-in-place) options object yields the
same options, the same tokenizer and results with identical format, native,
common and quality (warnings) components; and rerunning parseFromTokenizer on
the tokenizer object mutated by a first run reproduces the first result
exactly. -/
theorem parse_deterministic {F N C W : Type}
    (getL : IRandomReader → Nat) (findA : IRandomReader → Int → Option Int)
    (factory : ITokenizer → Option String → Option IOptions → IAudioMetadata F N C W)
    (buf : List Nat) (mime : Option String) (o : IOptions) :
    (∃ o₁ t r₁ r₂,
      parseBuffer getL findA factory buf mime o = Except.ok (o₁, t, r₁) ∧
      parseBuffer getL findA factory buf mime o₁ = Except.ok (o₁, t, r₂) ∧
      r₂.format = r₁.format ∧ r₂.native = r₁.native ∧
      r₂.common = r₁.common ∧ r₂.quality = r₁.quality) ∧
    (∀ (tok t₁ : ITokenizer) (opts : Option IOptions) (r : IAudioMetadata F N C W),
      parseFromTokenizer factory tok mime opts = Except.ok (t₁, r) →
      parseFromTokenizer factory t₁ mime opts = Except.ok (t₁, r)) := by
  constructor
  · refine ⟨scanAppendingHeaders getL findA (RandomBufferReader buf) o,
      updateTok (fromBuffer buf)
        (scanAppendingHeaders getL findA (RandomBufferReader buf) o),
      factory (updateTok (fromBuffer buf)
          (scanAppendingHeaders getL findA (RandomBufferReader buf) o)) mime
        (some (scanAppendingHeaders getL findA (RandomBufferReader buf) o)),
      factory (updateTok (fromBuffer buf)
          (scanAppendingHeaders getL findA (RandomBufferReader buf) o)) mime
        (some (scanAppendingHeaders getL findA (RandomBufferReader buf) o)),
      parseBuffer_eq getL findA factory buf mime o, ?_, rfl, rfl, rfl, rfl⟩
    rw [parseBuffer_eq]
    rfl
  · intro tok t₁ opts r h
    cases opts with
    | none =>
      by_cases ht : jsTruthy tok.fileSize
      · unfold parseFromTokenizer at h
        rw [if_pos ht] at h
        simp only [Except.ok.injEq, Prod.mk.injEq] at h
        obtain ⟨h1, h2⟩ := h
        subst h1
        unfold parseFromTokenizer
        rw [if_pos ht, h2]
      · unfold parseFromTokenizer at h
        rw [if_neg ht] at h
        exact absurd h (by simp)
    | some o' =>
      rw [parseFromTokenizer_some] at h
      simp only [Except.ok.injEq, Prod.mk.injEq] at h
      obtain ⟨h1, h2⟩ := h
      subst h1
      rw [parseFromTokenizer_some, updateTok_idem, h2]

/-- Witness for C7: rerunning parseFromTokenizer on the tokenizer it mutated
(a sizeless stream tokenizer given fileSize 4 from the options) reproduces
the first result. -/
theorem parse_deterministic_witness :
    parseFromTokenizer
        (fun _ _ _ => (IAudioMetadata.mk 0 0 0 0 : IAudioMetadata Nat Nat Nat Nat))
        (ITokenizer.mk none 0 (TokSource.stream 0)) none
        (some (IOptions.mk none (some 4) none none none none none none))
      = Except.ok (ITokenizer.mk (some 4) 0 (TokSource.stream 0),
          IAudioMetadata.mk 0 0 0 0) ∧
    parseFromTokenizer
        (fun _ _ _ => (IAudioMetadata.mk 0 0 0 0 : IAudioMetadata Nat Nat Nat Nat))
        (ITokenizer.mk (some 4) 0 (TokSource.stream 0)) none
        (some (IOptions.mk none (some 4) none none none none none none))
      = Except.ok (ITokenizer.mk (some 4) 0 (TokSource.stream 0),
          IAudioMetadata.mk 0 0 0 0) :=
  ⟨rfl,
    (parse_deterministic (fun _ => 0) (fun _ _ => none)
        (fun _ _ _ => (IAudioMetadata.mk 0 0 0 0 : IAudioMetadata Nat Nat Nat Nat))
        [] none emptyOptions).2
      (ITokenizer.mk none 0 (TokSource.stream 0))
      (ITokenizer.mk (some 4) 0 (TokSource.stream 0))
      (some (IOptions.mk none (some 4) none none none none none none))
      (IAudioMetadata.mk 0 0 0 0) rfl⟩

/-- Helper: reading back the property just written. -/
theorem lookupOwn_setProp_self {α : Type} (m : List (String × JSValue α))
    (key : String) (v : JSValue α) :
    lookupOwn (setProp m key v) key = some v := by
  induction m with
  | nil => simp [setProp, lookupOwn]
  | cons p rest ih =>
    obtain ⟨k, w⟩ := p
    by_cases h : k = key
    · simp [setProp, lookupOwn, h]
    · simp [setProp, lookupOwn, h, ih]

/-- Helper: writing one property leaves every other property unchanged. -/
theorem lookupOwn_setProp_ne {α : Type} (m : List (String × JSValue α))
    (key key' : String) (v : JSValue α) (h : key ≠ key') :
    lookupOwn (setProp m key v) key' = lookupOwn m key' := by
  induction m with
  | nil => simp [setProp, lookupOwn, h]
  | cons p rest ih =>
    obtain ⟨k, w⟩ := p
    by_cases hk : k = key
    · subst hk
      simp [setProp, lookupOwn, h]
    · simp [setProp, lookupOwn, hk, ih]

/-- Helper: invariant of the orderTags loop.  Starting from an accumulator
that stores no inherited function and processing tags none of whose ids is an
Object.prototype property name, the loop succeeds and every property ends up
holding what it held before with the values of the matching tags pushed onto
it in arrival order. -/
theorem orderTagsFrom_spec {α : Type} (ts : List (ITag α)) :
    ∀ m : List (String × JSValue α),
      (∀ t, t ∈ ts → t.id ∉ protoKeys) →
      (∀ k, lookupOwn m k ≠ some JSValue.inherited) →
      ∃ m', orderTagsFrom m ts = Except.ok m' ∧
        ∀ k, lookupOwn m' k
          = afterPush (lookupOwn m k)
              ((ts.filter (fun t => t.id == k)).map ITag.value) := by
  induction ts with
  | nil =>
    intro m _ _
    exact ⟨m, rfl, fun k => rfl⟩
  | cons t ts ih =>
    intro m hts hm
    have hid : t.id ∉ protoKeys := hts t (List.mem_cons_self t ts)
    have hts' : ∀ t', t' ∈ ts → t'.id ∉ protoKeys :=
      fun t' h' => hts t' (List.mem_cons_of_mem t h')
    cases hcur : lookupOwn m t.id with
    | none =>
      have hstep : orderTagsStep m t
          = Except.ok (setProp m t.id (JSValue.arr [t.value])) := by
        simp [orderTagsStep, getProp, hcur, hid]
      have hm' : ∀ k, lookupOwn (setProp m t.id (JSValue.arr [t.value])) k
          ≠ some JSValue.inherited := by
        intro k
        by_cases hk : t.id = k
        · subst hk
          rw [lookupOwn_setProp_self]
          simp
        · rw [lookupOwn_setProp_ne m t.id k _ hk]
          exact hm k
      obtain ⟨m', hrun, hspec⟩ :=
        ih (setProp m t.id (JSValue.arr [t.value])) hts' hm'
      refine ⟨m', by simp [orderTagsFrom, hstep, hrun], fun k => ?_⟩
      rw [hspec k]
      by_cases hk : t.id = k
      · subst hk
        rw [lookupOwn_setProp_self, hcur]
        cases hl : (ts.filter (fun t' => t'.id == t.id)).map ITag.value with
        | nil => simp [afterPush, List.filter_cons, hl]
        | cons x xs => simp [afterPush, List.filter_cons, hl]
      · have hbeq : (t.id == k) = false := beq_eq_false_iff_ne.mpr hk
        rw [lookupOwn_setProp_ne m t.id k _ hk]
        simp [List.filter_cons, hbeq]
    | some v =>
      cases v with
      | inherited => exact absurd hcur (hm t.id)
      | arr vs =>
        have hstep : orderTagsStep m t
            = Except.ok (setProp m t.id (JSValue.arr (vs ++ [t.value]))) := by
          simp [orderTagsStep, getProp, hcur]
        have hm' : ∀ k,
            lookupOwn (setProp m t.id (JSValue.arr (vs ++ [t.value]))) k
              ≠ some JSValue.inherited := by
          intro k
          by_cases hk : t.id = k
          · subst hk
            rw [lookupOwn_setProp_self]
            simp
          · rw [lookupOwn_setProp_ne m t.id k _ hk]
            exact hm k
        obtain ⟨m', hrun, hspec⟩ :=
          ih (setProp m t.id (JSValue.arr (vs ++ [t.value]))) hts' hm'
        refine ⟨m', by simp [orderTagsFrom, hstep, hrun], fun k => ?_⟩
        rw [hspec k]
        by_cases hk : t.id = k
        · subst hk
          rw [lookupOwn_setProp_self, hcur]
          cases hl : (ts.filter (fun t' => t'.id == t.id)).map ITag.value with
          | nil => simp [afterPush, List.filter_cons, hl]
          | cons x xs => simp [afterPush, List.filter_cons, hl]
        · have hbeq : (t.id == k) = false := beq_eq_false_iff_ne.mpr hk
          rw [lookupOwn_setProp_ne m t.id k _ hk]
          simp [List.filter_cons, hbeq]

/-- Counterexample to claim C3: on the tag list [("toString", 0)] orderTags
throws the TypeError of claim C9 instead of returning a mapping, so not every
list of native tags is mapped. -/
theorem orderTags_toString_throws :
    orderTags [ITag.mk "toString" (0 : Nat)] = Except.error () := by
  rfl

/-- Claim C3 as amended: for every list of native tags none of whose ids is
a property name inherited from Object.prototype, orderTags returns a mapping
in which each id is bound exactly to the values of the tags bearing that id,
duplicates preserved in arrival order, and ids borne by no tag are absent. -/
theorem orderTags_groups_by_id {α : Type} (nativeTags : List (ITag α))
    (h : ∀ t, t ∈ nativeTags → t.id ∉ protoKeys) :
    ∃ m, orderTags nativeTags = Except.ok m ∧
      ∀ k, lookupOwn m k
          = (if ((nativeTags.filter (fun t => t.id == k)).map ITag.value).isEmpty
             then none
             else some (JSValue.arr
               ((nativeTags.filter (fun t => t.id == k)).map ITag.value))) := by
  obtain ⟨m, hrun, hspec⟩ :=
    orderTagsFrom_spec nativeTags [] h (fun k => by simp [lookupOwn])
  refine ⟨m, hrun, fun k => ?_⟩
  rw [hspec k]
  cases hl : (nativeTags.filter (fun t => t.id == k)).map ITag.value with
  | nil => simp [afterPush, lookupOwn]
  | cons x xs => simp [afterPush, lookupOwn]

/-- Witness for C3 on a concrete list with a duplicated id: TIT2 collects
[1, 2] in arrival order. -/
theorem orderTags_groups_by_id_witness :
    (∀ t, t ∈ wTags → t.id ∉ protoKeys) ∧
    ∃ m, orderTags wTags = Except.ok m ∧
      lookupOwn m "TIT2" = some (JSValue.arr [1, 2]) := by
  refine ⟨by decide, ?_⟩
  obtain ⟨m, hrun, hspec⟩ := orderTags_groups_by_id wTags (by decide)
  refine ⟨m, hrun, ?_⟩
  rw [hspec "TIT2"]
  rfl

end MusicMetadata
